import Mathlib

/-!
Verification of the node-mongodb-native driver core against its specification.

The development shallowly embeds the repository's source files
(`src/operations/find.ts`, `src/cmap/auth/defaultAuthProviders.ts`) and, for
the components whose code is not part of the excerpt (topology state machine,
connection pool, server selector, DEFAULT-mechanism negotiation), models them
from the specification text, as marked on each such definition.
-/

namespace Mongo

/-! ## Embedding of src/operations/find.ts -/

/-- Embeds the driver's MongoError: only the message is relevant here. -/
structure MongoError where
  message : String
deriving Repr, DecidableEq

/-- Model of the JavaScript value passed as the `filter` argument of the
FindOperation constructor, with just enough structure to evaluate the
constructor's `typeof`, `Array.isArray`, `Buffer.isBuffer` and `_bsontype`
tests. An object carries its `_bsontype` property, when it has one. -/
inductive FilterValue where
  | undef
  | nullv
  | boolean (b : Bool)
  | number (n : Int)
  | str (s : String)
  | buffer (bytes : List Nat)
  | array (len : Nat)
  | obj (bsontype : Option String)
deriving Repr, DecidableEq

/-- JavaScript `typeof` on a filter value (`typeof null` is "object"). -/
def typeofFilter : FilterValue → String
  | .undef => "undefined"
  | .nullv => "object"
  | .boolean _ => "boolean"
  | .number _ => "number"
  | .str _ => "string"
  | .buffer _ => "object"
  | .array _ => "object"
  | .obj _ => "object"

/-- JavaScript `Array.isArray` on a filter value. -/
def isArrayFilter : FilterValue → Bool
  | .array _ => true
  | _ => false

/-- JavaScript `Buffer.isBuffer` on a filter value. -/
def isBufferFilter : FilterValue → Bool
  | .buffer _ => true
  | _ => false

/-- JavaScript `filter != null` (loose inequality: false for null and undefined). -/
def filterNonNull : FilterValue → Bool
  | .nullv => false
  | .undef => false
  | _ => true

/-- Reads the `_bsontype` property of a filter value (undefined on
non-objects; Buffers and arrays have no such property in this model). -/
def bsontypeOf : FilterValue → Option String
  | .obj bt => bt
  | _ => none

/-- Source: `filter[0] | (filter[1] << 8) | (filter[2] << 16) | (filter[3] << 24)`.
JavaScript bitwise operators produce a signed 32-bit integer; an out-of-range
Buffer index reads as `undefined`, which the `|` coerces to 0. -/
def bufferHeaderSize (bytes : List Nat) : Int :=
  let u : Nat :=
    (bytes.getD 0 0 % 256) |||
    ((bytes.getD 1 0 % 256) <<< 8) |||
    ((bytes.getD 2 0 % 256) <<< 16) |||
    ((bytes.getD 3 0 % 256) <<< 24)
  if u < 2 ^ 31 then (u : Int) else (u : Int) - 2 ^ 32

/-- Errors the FindOperation constructor can throw while validating its
`filter` argument: a MongoError, or the TypeError raised on a Buffer whose
BSON header size disagrees with its length (the payload records the buffer's
length and the header's size, the two numbers interpolated into the message). -/
inductive CtorError where
  | mongo (e : MongoError)
  | typeErr (actualLength : Int) (headerSize : Int)
deriving Repr, DecidableEq

/-- What the constructor stores into `this.filter`: either the argument itself
or, for an ObjectId, the wrapper `{ _id: filter }`. -/
inductive StoredFilter where
  | plain (f : FilterValue)
  | wrappedId (f : FilterValue)
deriving Repr, DecidableEq

/-- Embeds the filter-validation part of `FindOperation.constructor`
(src/operations/find.ts lines 109-124): reject a filter that is not of object
type or is an array; validate a Buffer's BSON header; wrap an ObjectId as
`{ _id: filter }`. -/
def initFilter (filter : FilterValue) : Except CtorError StoredFilter :=
  if typeofFilter filter != "object" || isArrayFilter filter then
    .error (.mongo { message := "Query filter must be a plain object or ObjectId" })
  else if isBufferFilter filter then
    match filter with
    | .buffer bytes =>
      let objectSize := bufferHeaderSize bytes
      if objectSize != (bytes.length : Int) then
        .error (.typeErr (bytes.length : Int) objectSize)
      else if filterNonNull filter && bsontypeOf filter == some "ObjectID" then
        .ok (.wrappedId filter)
      else
        .ok (.plain filter)
    | _ => .ok (.plain filter)
  else if filterNonNull filter && bsontypeOf filter == some "ObjectID" then
    .ok (.wrappedId filter)
  else
    .ok (.plain filter)

/-- Opaque model of a user-supplied projection document: a plain document, an
array of field names (which `execute` rewrites), or a Buffer. -/
inductive Projection where
  | doc (entries : List (String × Int))
  | arr (fields : List String)
  | buffer (bytes : List Nat)
deriving Repr, DecidableEq

/-- Source (src/operations/find.ts lines 161-168): an array projection is
reduced to `{ field: 1, ... }`, an empty array to `{ _id: 1 }`; anything that
is a Buffer or not an array passes through. -/
def normalizeProjection (p : Projection) : Projection :=
  match p with
  | .arr fields =>
    if fields.length != 0 then .doc (fields.map fun f => (f, 1))
    else .doc [("_id", 1)]
  | _ => p

/-- Opaque model of the `sort` option (object or array form; always truthy). -/
inductive SortSpec where
  | spec (s : String)
deriving Repr, DecidableEq

/-- Uninterpreted collaborator `formattedOrderClause` from ../utils: the
embedding only records that it was applied. -/
inductive FormattedSort where
  | formatted (s : SortSpec)
deriving Repr, DecidableEq

/-- Source: `findCommand.sort = formattedOrderClause(options.sort)`. -/
def formattedOrderClause (s : SortSpec) : FormattedSort := .formatted s

/-- Model of the `hint` option: a field-name string or an index document. -/
inductive HintSpec where
  | str (s : String)
  | doc (entries : List (String × Int))
deriving Repr, DecidableEq

/-- JavaScript truthiness of a hint (an empty string is falsy; objects are truthy). -/
def hintTruthy : Option HintSpec → Bool
  | some (.str s) => s != ""
  | some (.doc _) => true
  | none => false

/-- Uninterpreted collaborator `normalizeHintField` from ../utils. -/
inductive NormalizedHint where
  | normalized (h : HintSpec)
deriving Repr, DecidableEq

/-- Source: `findCommand.hint = normalizeHintField(options.hint)`. -/
def normalizeHintField (h : HintSpec) : NormalizedHint := .normalized h

/-- Model of the `comment` option: a string or a document. -/
inductive Comment where
  | str (s : String)
  | doc (entries : List (String × Int))
deriving Repr, DecidableEq

/-- JavaScript truthiness of a comment (an empty string is falsy). -/
def commentTruthy : Option Comment → Bool
  | some (.str s) => s != ""
  | some (.doc _) => true
  | none => false

/-- JavaScript truthiness of an optional number (0 is falsy). -/
def numTruthy : Option Int → Bool
  | some v => v != 0
  | none => false

/-- Opaque model of the `collation` option (CollationOptions; objects are
always truthy, so presence coincides with truthiness). -/
structure CollationOptions where
  locale : String
deriving Repr, DecidableEq

/-- Embeds the FindOptions interface fields that `execute` reads
(src/operations/find.ts). An absent TypeScript optional field is `none`.
The deprecated option named `partial` in the source is called
`partialResults` here, `partial` being a Lean keyword. -/
structure FindOptions where
  sort : Option SortSpec := none
  projection : Option Projection := none
  fields : Option Projection := none
  hint : Option HintSpec := none
  skip : Option Int := none
  limit : Option Int := none
  batchSize : Option Int := none
  singleBatch : Option Bool := none
  comment : Option Comment := none
  maxTimeMS : Option Int := none
  max : Option Int := none
  min : Option Int := none
  returnKey : Option Bool := none
  showRecordId : Option Bool := none
  tailable : Option Bool := none
  oplogReplay : Option Bool := none
  timeout : Option Bool := none
  noCursorTimeout : Option Bool := none
  awaitData : Option Bool := none
  awaitdata : Option Bool := none
  allowPartialResults : Option Bool := none
  partialResults : Option Bool := none
  collation : Option CollationOptions := none
  allowDiskUse : Option Bool := none
  snapshot : Option Bool := none
  showDiskLoc : Option Bool := none
deriving Repr, DecidableEq

/-- The `this.*` state of a FindOperation that `execute` reads, together with
the server argument's observable attributes. -/
structure ExecuteContext where
  ns : String
  filter : StoredFilter
  readConcern : Option String := none
  sessionInTransaction : Option Bool := none
  serverName : String := ""
  serverWireVersion : Nat := 0
deriving Repr, DecidableEq

/-- Source constant `SUPPORTS_WRITE_CONCERN_AND_COLLATION = 5`. -/
def SUPPORTS_WRITE_CONCERN_AND_COLLATION : Nat := 5

/-- The find command document assembled by `execute`; a `none` field was never
assigned. -/
structure FindCommand where
  find : String
  query : StoredFilter
  sort : Option FormattedSort := none
  fields : Option Projection := none
  hint : Option NormalizedHint := none
  skip : Option Int := none
  limit : Option Int := none
  batchSize : Option Int := none
  singleBatch : Option Bool := none
  comment : Option Comment := none
  maxTimeMS : Option Int := none
  readConcern : Option String := none
  max : Option Int := none
  min : Option Int := none
  returnKey : Option Bool := none
  showRecordId : Option Bool := none
  tailable : Option Bool := none
  oplogReplay : Option Bool := none
  noCursorTimeout : Option Bool := none
  awaitData : Option Bool := none
  allowPartialResults : Option Bool := none
  collation : Option CollationOptions := none
  allowDiskUse : Option Bool := none
  snapshot : Option Bool := none
  showDiskLoc : Option Bool := none
deriving Repr, DecidableEq

/-- Embeds the command-assembly statements of `FindOperation.execute`
(src/operations/find.ts lines 153-271). Each source `if` guards exactly one
distinct command field, so the sequence of conditional assignments is written
as one record; a field keeps its `none` default when its guard is false. The
deprecated/modern pairs mirror the source's if/else-if chains: `timeout` wins
over `noCursorTimeout`, `awaitData` over `awaitdata`, `allowPartialResults`
over the deprecated `partial`. -/
def buildFindCommand (ctx : ExecuteContext) (o : FindOptions) : FindCommand :=
  { find := ctx.ns
    query := ctx.filter
    sort := o.sort.map formattedOrderClause
    fields := (o.projection.orElse fun _ => o.fields).map normalizeProjection
    hint := if hintTruthy o.hint then o.hint.map normalizeHintField else none
    skip := o.skip
    limit := o.limit
    batchSize := o.batchSize
    singleBatch := o.singleBatch
    comment := if commentTruthy o.comment then o.comment else none
    maxTimeMS := o.maxTimeMS
    readConcern :=
      if ctx.readConcern.isSome &&
          (ctx.sessionInTransaction == none || ctx.sessionInTransaction == some false) then
        ctx.readConcern
      else none
    max := if numTruthy o.max then o.max else none
    min := if numTruthy o.min then o.min else none
    returnKey := o.returnKey
    showRecordId := o.showRecordId
    tailable := o.tailable
    oplogReplay := o.oplogReplay
    noCursorTimeout :=
      match o.timeout with
      | some b => some b
      | none => o.noCursorTimeout
    awaitData :=
      match o.awaitData with
      | some b => some b
      | none => o.awaitdata
    allowPartialResults :=
      match o.allowPartialResults with
      | some b => some b
      | none => o.partialResults
    collation := o.collation
    allowDiskUse := o.allowDiskUse
    snapshot := o.snapshot
    showDiskLoc := o.showDiskLoc }

/-- Observable outcome of `FindOperation.execute`: either the callback is
invoked with an error and `server.query` is never reached, or `server.query`
is called with the assembled find command. -/
inductive ExecuteOutcome where
  | errorCallback (e : MongoError)
  | queryCalled (cmd : FindCommand)
deriving Repr, DecidableEq

/-- Embeds the control flow of `FindOperation.execute`
(src/operations/find.ts lines 142-280): the `allowDiskUse` wire-version check
fails first (lines 148-151), the `collation` wire-version check fails before
`server.query` (lines 247-256); otherwise `server.query` receives the
assembled command. -/
def execute (ctx : ExecuteContext) (o : FindOptions) : ExecuteOutcome :=
  if o.allowDiskUse.isSome && ctx.serverWireVersion < 4 then
    .errorCallback { message := "The `allowDiskUse` option is not supported on MongoDB < 3.2" }
  else if o.collation.isSome && ctx.serverWireVersion < SUPPORTS_WRITE_CONCERN_AND_COLLATION then
    .errorCallback
      { message := "Server " ++ ctx.serverName ++ ", which reports wire version " ++
          toString ctx.serverWireVersion ++ ", does not support collation" }
  else
    .queryCalled (buildFindCommand ctx o)

/-! ## Embedding of src/cmap/auth/defaultAuthProviders.ts -/

/-- Embeds the `AuthMechanism` enum (src/cmap/auth/defaultAuthProviders.ts
lines 10-19). -/
inductive AuthMechanism where
  | MONGODB_AWS
  | MONGODB_CR
  | MONGODB_DEFAULT
  | MONGODB_GSSAPI
  | MONGODB_PLAIN
  | MONGODB_SCRAM_SHA1
  | MONGODB_SCRAM_SHA256
  | MONGODB_X509
deriving Repr, DecidableEq

/-- The string value of each `AuthMechanism` enum member. -/
def AuthMechanism.value : AuthMechanism → String
  | .MONGODB_AWS => "MONGODB-AWS"
  | .MONGODB_CR => "MONGODB-CR"
  | .MONGODB_DEFAULT => "DEFAULT"
  | .MONGODB_GSSAPI => "GSSAPI"
  | .MONGODB_PLAIN => "PLAIN"
  | .MONGODB_SCRAM_SHA1 => "SCRAM-SHA-1"
  | .MONGODB_SCRAM_SHA256 => "SCRAM-SHA-256"
  | .MONGODB_X509 => "MONGODB-X509"

/-- The concrete AuthProvider classes instantiated by the registry; each is
stateless, so one constructor per class stands for its single instance. -/
inductive AuthProvider where
  | MongoDBAWS
  | MongoCR
  | GSSAPI
  | Plain
  | ScramSHA1
  | ScramSHA256
  | X509
deriving Repr, DecidableEq

/-- Embeds the `AUTH_PROVIDERS` constant (src/cmap/auth/defaultAuthProviders.ts
lines 21-29): an association of mechanism string to provider instance, one
entry per computed key, in source order. -/
def AUTH_PROVIDERS : List (String × AuthProvider) :=
  [ (AuthMechanism.MONGODB_AWS.value, .MongoDBAWS),
    (AuthMechanism.MONGODB_CR.value, .MongoCR),
    (AuthMechanism.MONGODB_GSSAPI.value, .GSSAPI),
    (AuthMechanism.MONGODB_PLAIN.value, .Plain),
    (AuthMechanism.MONGODB_SCRAM_SHA1.value, .ScramSHA1),
    (AuthMechanism.MONGODB_SCRAM_SHA256.value, .ScramSHA256),
    (AuthMechanism.MONGODB_X509.value, .X509) ]

/-- Embeds `defaultAuthProviders()` (src/cmap/auth/defaultAuthProviders.ts
lines 35-37): every call returns the same module-level `AUTH_PROVIDERS` map. -/
def defaultAuthProviders (_u : Unit) : List (String × AuthProvider) :=
  AUTH_PROVIDERS

/-- Modelled from the spec: the capability-exchange step of the
authentication handshake for a client configured with mechanism `DEFAULT`
(the negotiation code is not under src/): "select `SCRAM-SHA-256` if offered,
else `SCRAM-SHA-1`, else fail with an unsupported-mechanism error". -/
def selectDefaultMechanism (offered : List String) : Except MongoError String :=
  if "SCRAM-SHA-256" ∈ offered then .ok "SCRAM-SHA-256"
  else if "SCRAM-SHA-1" ∈ offered then .ok "SCRAM-SHA-1"
  else .error { message := "unsupported authentication mechanism" }

/-! ## Server selector (modelled from the spec, section 4.5) -/

/-- Modelled from the spec: the default latency window of the server
selector's narrowing step, 15ms. -/
def DEFAULT_LOCAL_THRESHOLD_MS : Nat := 15

/-- Modelled from the spec: "compute the minimum observed latency among
eligible servers". Servers are (address, latency in ms) pairs; an empty
eligible set has no minimum. -/
def minLatency (servers : List (String × Nat)) : Option Nat :=
  match servers.map Prod.snd with
  | [] => none
  | x :: xs => some (xs.foldl Nat.min x)

/-- Modelled from the spec: latency narrowing of the server selector (the
selector code is not under src/): "compute the minimum observed latency among
eligible servers, then keep all servers within a configurable window (default
15ms) above that minimum". A server is kept when its latency is at most
`min + window`. -/
def latencyWindowFilter (window : Nat) (servers : List (String × Nat)) :
    List (String × Nat) :=
  match minLatency servers with
  | none => []
  | some m => servers.filter fun s => decide (s.2 ≤ m + window)

/-! ## Connection pool (modelled from the spec, section 4.3) -/

/-- Modelled from the spec: a Connection's attributes relevant to checkout —
its identity, the pool generation at creation time, and whether the full
authentication handshake completed before it was handed out. -/
structure Connection where
  id : Nat
  generation : Nat
  authenticated : Bool
deriving Repr, DecidableEq

/-- Modelled from the spec: the per-server Pool — a generation counter, the
idle set (which may still hold stale connections between a `clear()` and its
asynchronous drain), the current and maximum size, a counter providing fresh
connection identities, and the FIFO wait queue of pending checkouts. -/
structure Pool where
  generation : Nat
  idle : List Connection
  size : Nat
  maxSize : Nat
  nextId : Nat
  waitQueue : List Nat
deriving Repr, DecidableEq

/-- Outcome of a checkout step: a Connection was handed out, or the request
was enqueued on the wait queue (the caller blocks). -/
inductive CheckoutResult where
  | checkedOut (c : Connection)
  | enqueued
deriving Repr, DecidableEq

/-- Modelled from the spec: `checkout(deadline)` — "if an idle Connection with
current generation exists, remove it from the idle set and return it. Else if
current size < maximum, create a new Connection (performing the full
Authentication Handshake before returning it) and return it. Else enqueue on
the wait queue (FIFO)". The deadline/blocking behaviour is represented by the
`enqueued` outcome. -/
def checkout (p : Pool) : Pool × CheckoutResult :=
  match p.idle.find? fun c => c.generation == p.generation with
  | some c => ({ p with idle := p.idle.erase c }, .checkedOut c)
  | none =>
    if p.size < p.maxSize then
      let c : Connection := { id := p.nextId, generation := p.generation, authenticated := true }
      ({ p with size := p.size + 1, nextId := p.nextId + 1 }, .checkedOut c)
    else
      ({ p with waitQueue := p.waitQueue ++ [p.nextId] }, .enqueued)

/-- Modelled from the spec: `clear()` — "increments `pool.generation` and
asynchronously destroys all currently idle connections"; the idle set is
untouched at return time since the destruction is asynchronous, which is what
makes the generation guard in `checkout` load-bearing. -/
def Pool.clear (p : Pool) : Pool :=
  { p with generation := p.generation + 1 }

/-- Wellformedness of a pool state: every idle connection was created under
some past or current generation, and its identity was drawn from the
fresh-identity counter. -/
def PoolWF (p : Pool) : Prop :=
  ∀ c ∈ p.idle, c.generation ≤ p.generation ∧ c.id < p.nextId

/-! ## Topology state machine (modelled from the spec, sections 3 and 4.2) -/

/-- Modelled from the spec: the observed role of a server. -/
inductive ServerType where
  | Unknown
  | Standalone
  | RSPrimary
  | RSSecondary
  | RSArbiter
  | RSGhost
  | Mongos
  | LoadBalancer
deriving Repr, DecidableEq

/-- Modelled from the spec: the monotonically increasing topology version
tuple `(processId, counter)` used to discard stale updates. -/
structure TopologyVersion where
  processId : Nat
  counter : Nat
deriving Repr, DecidableEq

/-- Modelled from the spec: whether version `a` is newer than version `b`,
comparing the `(processId, counter)` tuples lexicographically. -/
def TopologyVersion.newerThan (a b : TopologyVersion) : Bool :=
  b.processId < a.processId || (a.processId == b.processId && b.counter < a.counter)

/-- Modelled from the spec: a ServerDescription with the fields the topology
state machine reads — address, role, the `(setVersion, electionId)` pair for
primary-freshness comparisons, and the topology version. -/
structure ServerDescription where
  address : String
  type : ServerType
  setVersion : Nat
  electionId : Nat
  topologyVersion : TopologyVersion
deriving Repr, DecidableEq

/-- Modelled from the spec: whether `sd`'s `(setVersion, electionId)` pair is
older than `other`'s, comparing lexicographically. -/
def electionPairOlder (sd other : ServerDescription) : Bool :=
  sd.setVersion < other.setVersion ||
    (sd.setVersion == other.setVersion && sd.electionId < other.electionId)

/-- Modelled from the spec: the TopologyDescription's mutable aggregate — the
map from server address to its latest ServerDescription (an association list)
and the set of addresses whose monitors were asked to re-check immediately. -/
structure TopologyState where
  servers : List (String × ServerDescription)
  rechecks : List String
deriving Repr, DecidableEq

/-- Replaces the entry for address `a` (first occurrence) or appends a new
entry when the address is unknown. -/
def setServer : List (String × ServerDescription) → String → ServerDescription →
    List (String × ServerDescription)
  | [], a, sd => [(a, sd)]
  | (b, cur) :: rest, a, sd =>
    if b == a then (a, sd) :: rest else (b, cur) :: setServer rest a sd

/-- Demotes every entry recorded at address `a` to role `Unknown`, keeping all
other fields. -/
def demoteToUnknown (servers : List (String × ServerDescription)) (a : String) :
    List (String × ServerDescription) :=
  servers.map fun e => if e.1 == a then (e.1, { e.2 with type := .Unknown }) else e

/-- Finds a recorded primary at an address other than `a`, if any. -/
def findOtherPrimary (servers : List (String × ServerDescription)) (a : String) :
    Option (String × ServerDescription) :=
  servers.find? fun e => e.2.type == .RSPrimary && e.1 != a

/-- Modelled from the spec: integration of an already version-admitted
ServerDescription. Primary-freshness tie-break: "if two updates would imply
two primaries, the one with the older `(setVersion, electionId)` pair is
demoted to `Unknown` and its monitor is asked to re-check immediately" — an
incoming primary with the older pair is recorded demoted and its own address
re-checked; otherwise the previously recorded primary is demoted and its
address re-checked. -/
def integrateDescription (st : TopologyState) (sd : ServerDescription) : TopologyState :=
  if sd.type == .RSPrimary then
    match findOtherPrimary st.servers sd.address with
    | some (pa, p) =>
      if electionPairOlder sd p then
        { servers := setServer st.servers sd.address { sd with type := .Unknown },
          rechecks := sd.address :: st.rechecks }
      else
        { servers := setServer (demoteToUnknown st.servers pa) sd.address sd,
          rechecks := pa :: st.rechecks }
    | none => { st with servers := setServer st.servers sd.address sd }
  else { st with servers := setServer st.servers sd.address sd }

/-- Modelled from the spec: the fold step of the topology state machine — "on
each incoming ServerDescription: discard if its topology version is not newer
than the currently stored one for that address"; otherwise integrate it. -/
def applyUpdate (st : TopologyState) (sd : ServerDescription) : TopologyState :=
  match st.servers.lookup sd.address with
  | some cur =>
    if sd.topologyVersion.newerThan cur.topologyVersion then integrateDescription st sd
    else st
  | none => integrateDescription st sd

/-- Folds a sequence of ServerDescription updates into the topology state. -/
def applyUpdates (st : TopologyState) (sds : List ServerDescription) : TopologyState :=
  sds.foldl applyUpdate st

/-- The number of entries classified `RSPrimary`. -/
def primaryCount (servers : List (String × ServerDescription)) : Nat :=
  servers.countP fun e => e.2.type == .RSPrimary

/-- Wellformedness of a topology state: one entry per address, and at most one
server classified `RSPrimary`. -/
def TopologyWF (st : TopologyState) : Prop :=
  (st.servers.map Prod.fst).Nodup ∧ primaryCount st.servers ≤ 1

/-- Whether the version guard admits `sd` into state `st` (true also for a
previously unknown address). -/
def versionAdmits (st : TopologyState) (sd : ServerDescription) : Bool :=
  match st.servers.lookup sd.address with
  | some cur => sd.topologyVersion.newerThan cur.topologyVersion
  | none => true

/-- The topology version currently stored for address `a`. -/
def storedVersion (st : TopologyState) (a : String) : Option TopologyVersion :=
  (st.servers.lookup a).map ServerDescription.topologyVersion

/-- The newer of a stored version and an incoming one (the incoming wins only
when strictly newer). -/
def tvMax (v : Option TopologyVersion) (w : TopologyVersion) : Option TopologyVersion :=
  match v with
  | none => some w
  | some v0 => if w.newerThan v0 then some w else some v0

/-- Pure per-address accumulation of the highest topology version delivered. -/
def versionFold (v : Option TopologyVersion) (updates : List ServerDescription)
    (a : String) : Option TopologyVersion :=
  updates.foldl
    (fun acc sd => if sd.address == a then tvMax acc sd.topologyVersion else acc) v

/-! ## Theorems about find-command construction -/

/-- Sample execution context used to instantiate the find-command theorems. -/
def sampleContext : ExecuteContext :=
  { ns := "db.coll", filter := .plain (.obj none), serverWireVersion := 8 }

/-- Sample options exercising the deprecated/modern option pairs. -/
def sampleOptions : FindOptions :=
  { timeout := some false, noCursorTimeout := some true,
    awaitdata := some true, partialResults := some true }

/-- C6: for every FindOptions, the built find command's awaitData field equals
`options.awaitData` when that is a boolean, otherwise the deprecated
`options.awaitdata` when that is a boolean, and otherwise is absent; only the
two option fields matter. -/
theorem find_awaitData_translation (ctx : ExecuteContext) (o : FindOptions)
    (c : FindCommand) (h : execute ctx o = .queryCalled c) :
    c.awaitData = match o.awaitData with
      | some b => some b
      | none => o.awaitdata := by
  revert h
  unfold execute
  split
  · intro h; cases h
  · split
    · intro h; cases h
    · intro h; cases h; rfl

/-- C6 witness: a concrete run of `execute` whose command carries the
deprecated `awaitdata` value. -/
theorem find_awaitData_translation_witness :
    (buildFindCommand sampleContext sampleOptions).awaitData =
      match sampleOptions.awaitData with
      | some b => some b
      | none => sampleOptions.awaitdata :=
  find_awaitData_translation sampleContext sampleOptions
    (buildFindCommand sampleContext sampleOptions) rfl

/-- C10: the deprecated `timeout` option wins over `noCursorTimeout` in the
built command, while for the `awaitData`/`awaitdata` and
`allowPartialResults`/`partial` pairs the non-deprecated option wins. -/
theorem find_noCursorTimeout_precedence (ctx : ExecuteContext) (o : FindOptions)
    (c : FindCommand) (h : execute ctx o = .queryCalled c) :
    (c.noCursorTimeout = match o.timeout with
      | some b => some b
      | none => o.noCursorTimeout)
    ∧ (c.awaitData = match o.awaitData with
      | some b => some b
      | none => o.awaitdata)
    ∧ (c.allowPartialResults = match o.allowPartialResults with
      | some b => some b
      | none => o.partialResults) := by
  revert h
  unfold execute
  split
  · intro h; cases h
  · split
    · intro h; cases h
    · intro h; cases h; exact ⟨rfl, rfl, rfl⟩

/-- C10 witness: a concrete run where the deprecated `timeout := false` value
overrides `noCursorTimeout := true`. -/
theorem find_noCursorTimeout_precedence_witness :
    ((buildFindCommand sampleContext sampleOptions).noCursorTimeout =
      match sampleOptions.timeout with
      | some b => some b
      | none => sampleOptions.noCursorTimeout)
    ∧ ((buildFindCommand sampleContext sampleOptions).awaitData =
      match sampleOptions.awaitData with
      | some b => some b
      | none => sampleOptions.awaitdata)
    ∧ ((buildFindCommand sampleContext sampleOptions).allowPartialResults =
      match sampleOptions.allowPartialResults with
      | some b => some b
      | none => sampleOptions.partialResults) :=
  find_noCursorTimeout_precedence sampleContext sampleOptions
    (buildFindCommand sampleContext sampleOptions) rfl

/-- C9: whenever `allowDiskUse` is defined against a server of wire version
below 4, or `collation` is set against a server of wire version below 5,
`execute` invokes the callback with a MongoError and `server.query` is never
called. -/
theorem find_execute_fails_fast (ctx : ExecuteContext) (o : FindOptions)
    (h : (o.allowDiskUse.isSome = true ∧ ctx.serverWireVersion < 4) ∨
         (o.collation.isSome = true ∧
           ctx.serverWireVersion < SUPPORTS_WRITE_CONCERN_AND_COLLATION)) :
    ∃ e, execute ctx o = .errorCallback e := by
  unfold execute
  split
  · exact ⟨_, rfl⟩
  · split
    · exact ⟨_, rfl⟩
    · rename_i h1 h2
      exfalso
      simp only [Bool.and_eq_true, decide_eq_true_eq, not_and, Bool.not_eq_true] at h1 h2
      rcases h with ⟨ha, hb⟩ | ⟨ha, hb⟩
      · exact h1 ha hb
      · exact h2 ha hb

/-- Context of a server reporting wire version 3 (below the allowDiskUse and
collation thresholds). -/
def lowWireContext : ExecuteContext :=
  { ns := "db.coll", filter := .plain (.obj none), serverWireVersion := 3 }

/-- Options requesting allowDiskUse. -/
def diskUseOptions : FindOptions := { allowDiskUse := some true }

/-- C9 witness: `allowDiskUse` against wire version 3 produces an error
callback. -/
theorem find_execute_fails_fast_witness :
    ∃ e, execute lowWireContext diskUseOptions = .errorCallback e :=
  find_execute_fails_fast lowWireContext diskUseOptions (Or.inl ⟨rfl, by decide⟩)

/-- C8: the FindOperation constructor throws a MongoError for every filter
argument that is an array or not of object type, and stores `{ _id: filter }`
for every filter whose `_bsontype` is "ObjectID". -/
theorem find_filter_validation :
    (∀ f : FilterValue, typeofFilter f ≠ "object" ∨ isArrayFilter f = true →
        initFilter f =
          .error (.mongo { message := "Query filter must be a plain object or ObjectId" }))
    ∧ (∀ f : FilterValue, bsontypeOf f = some "ObjectID" →
        initFilter f = .ok (.wrappedId f)) := by
  constructor
  · intro f h
    unfold initFilter
    rw [if_pos]
    rcases h with h | h
    · simp [h]
    · simp [h]
  · intro f h
    cases f <;>
      simp_all [bsontypeOf, initFilter, typeofFilter, isArrayFilter, isBufferFilter,
        filterNonNull]

/-! ## Theorems about the authentication mechanism registry -/

/-- C4: under mechanism DEFAULT the capability exchange selects SCRAM-SHA-256
when offered, else SCRAM-SHA-1 when offered, else fails with an
unsupported-mechanism error; every selected mechanism has a provider in the
registry, and the two SCRAM mechanisms are distinct registry entries. -/
theorem default_mechanism_selection :
    (∀ offered : List String, "SCRAM-SHA-256" ∈ offered →
        selectDefaultMechanism offered = .ok "SCRAM-SHA-256")
    ∧ (∀ offered : List String, "SCRAM-SHA-256" ∉ offered → "SCRAM-SHA-1" ∈ offered →
        selectDefaultMechanism offered = .ok "SCRAM-SHA-1")
    ∧ (∀ offered : List String, "SCRAM-SHA-256" ∉ offered → "SCRAM-SHA-1" ∉ offered →
        selectDefaultMechanism offered =
          .error { message := "unsupported authentication mechanism" })
    ∧ (∀ (offered : List String) (m : String), selectDefaultMechanism offered = .ok m →
        (AUTH_PROVIDERS.lookup m).isSome = true)
    ∧ AUTH_PROVIDERS.lookup "SCRAM-SHA-256" = some .ScramSHA256
    ∧ AUTH_PROVIDERS.lookup "SCRAM-SHA-1" = some .ScramSHA1
    ∧ AuthProvider.ScramSHA256 ≠ AuthProvider.ScramSHA1 := by
  refine ⟨?_, ?_, ?_, ?_, by decide, by decide, by decide⟩
  · intro offered h
    simp [selectDefaultMechanism, h]
  · intro offered h256 h1
    simp [selectDefaultMechanism, h256, h1]
  · intro offered h256 h1
    simp [selectDefaultMechanism, h256, h1]
  · intro offered m h
    revert h
    unfold selectDefaultMechanism
    split
    · intro h; cases h; decide
    · split
      · intro h; cases h; decide
      · intro h; cases h

/-- C7: the registry is a singleton — every call to `defaultAuthProviders`
returns the same `AUTH_PROVIDERS` map, whose keys are exactly the seven
concrete mechanisms (DEFAULT excluded), each bound to its own distinct
stateless provider instance. -/
theorem auth_provider_registry_singleton :
    (∀ u v : Unit, defaultAuthProviders u = defaultAuthProviders v)
    ∧ defaultAuthProviders () = AUTH_PROVIDERS
    ∧ AUTH_PROVIDERS.map Prod.fst =
        ["MONGODB-AWS", "MONGODB-CR", "GSSAPI", "PLAIN",
          "SCRAM-SHA-1", "SCRAM-SHA-256", "MONGODB-X509"]
    ∧ (AUTH_PROVIDERS.map Prod.fst).Nodup
    ∧ (AUTH_PROVIDERS.map Prod.snd).Nodup
    ∧ AuthMechanism.MONGODB_DEFAULT.value ∉ AUTH_PROVIDERS.map Prod.fst :=
  ⟨fun _ _ => rfl, rfl, by decide, by decide, by decide, by decide⟩

/-! ## Theorems about latency narrowing -/

/-- Folding `Nat.min` over a list is bounded by the seed and by every element. -/
theorem foldl_min_le_seed (xs : List Nat) (x : Nat) : xs.foldl Nat.min x ≤ x := by
  induction xs generalizing x with
  | nil => exact Nat.le_refl x
  | cons a t ih =>
    exact Nat.le_trans (ih (Nat.min x a)) (Nat.min_le_left x a)

/-- Folding `Nat.min` over a list bounds every element of seed-and-list. -/
theorem foldl_min_le (xs : List Nat) (x y : Nat) (hy : y = x ∨ y ∈ xs) :
    xs.foldl Nat.min x ≤ y := by
  induction xs generalizing x with
  | nil =>
    rcases hy with rfl | hy
    · exact Nat.le_refl y
    · cases hy
  | cons a t ih =>
    rcases hy with rfl | hy
    · exact Nat.le_trans (foldl_min_le_seed t (Nat.min y a)) (Nat.min_le_left y a)
    rcases List.mem_cons.mp hy with rfl | hy
    · exact Nat.le_trans (foldl_min_le_seed t (Nat.min x y)) (Nat.min_le_right x y)
    · exact ih (Nat.min x a) (Or.inr hy)

/-- The set of eligible servers used by the narrowing example: latencies
5, 6, 18 and 20 milliseconds. -/
def narrowingExample : List (String × Nat) :=
  [("a", 5), ("b", 6), ("c", 18), ("d", 20)]

/-- C5 counterexample: with the closed window `[min, min + 15]` the claim's
own example is wrong — at latencies 5, 6, 18, 20 the boundary server at
20 = 5 + 15 ms is included, so the returned set is not the claimed three
servers. -/
theorem latency_window_boundary_included :
    latencyWindowFilter DEFAULT_LOCAL_THRESHOLD_MS narrowingExample ≠
      [("a", 5), ("b", 6), ("c", 18)]
    ∧ ("d", 20) ∈ latencyWindowFilter DEFAULT_LOCAL_THRESHOLD_MS narrowingExample := by
  decide

/-- C5 (amended): latency narrowing returns exactly the eligible servers whose
latency lies within the closed interval `[min, min + window]`; at latencies
5, 6, 18, 20 with the default 15ms window all four servers are returned,
the boundary server at `min + window = 20` included. -/
theorem latency_window_closed_interval :
    (∀ (w : Nat) (servers : List (String × Nat)) (s : String × Nat),
        s ∈ latencyWindowFilter w servers ↔
          s ∈ servers ∧ ∃ m, minLatency servers = some m ∧ m ≤ s.2 ∧ s.2 ≤ m + w)
    ∧ latencyWindowFilter DEFAULT_LOCAL_THRESHOLD_MS narrowingExample =
        narrowingExample := by
  refine ⟨?_, by decide⟩
  intro w servers s
  rcases hs : servers.map Prod.snd with _ | ⟨x, xs⟩
  · have hnil : servers = [] := List.map_eq_nil_iff.mp hs
    subst hnil
    simp [latencyWindowFilter, minLatency]
  · have hmin : minLatency servers = some (xs.foldl Nat.min x) := by
      simp [minLatency, hs]
    constructor
    · intro hmem
      rw [latencyWindowFilter, hmin] at hmem
      rcases List.mem_filter.mp hmem with ⟨hin, hle⟩
      refine ⟨hin, xs.foldl Nat.min x, hmin, ?_, of_decide_eq_true hle⟩
      have hsnd : s.2 ∈ servers.map Prod.snd := List.mem_map_of_mem Prod.snd hin
      rw [hs] at hsnd
      exact foldl_min_le xs x s.2 (List.mem_cons.mp hsnd)
    · rintro ⟨hin, m, hm, _, hle⟩
      rw [hmin] at hm
      cases hm
      rw [latencyWindowFilter, hmin]
      exact List.mem_filter.mpr ⟨hin, decide_eq_true hle⟩

/-! ## Theorems about the connection pool -/

/-- Equation for `checkout` when an idle connection of the current generation
exists. -/
theorem checkout_of_find_some (p : Pool) (c0 : Connection)
    (hfind : (p.idle.find? fun c => c.generation == p.generation) = some c0) :
    checkout p = ({ p with idle := p.idle.erase c0 }, .checkedOut c0) := by
  unfold checkout
  rw [hfind]

/-- Equation for `checkout` when no current-generation idle connection exists
and the pool has room: a fresh connection is created. -/
theorem checkout_of_find_none_room (p : Pool)
    (hfind : (p.idle.find? fun c => c.generation == p.generation) = none)
    (hsz : p.size < p.maxSize) :
    checkout p = ({ p with size := p.size + 1, nextId := p.nextId + 1 },
      .checkedOut { id := p.nextId, generation := p.generation, authenticated := true }) := by
  unfold checkout
  rw [hfind]
  simp [hsz]

/-- Equation for `checkout` when no current-generation idle connection exists
and the pool is at maximum size: the request is enqueued. -/
theorem checkout_of_find_none_full (p : Pool)
    (hfind : (p.idle.find? fun c => c.generation == p.generation) = none)
    (hsz : ¬p.size < p.maxSize) :
    checkout p = ({ p with waitQueue := p.waitQueue ++ [p.nextId] }, .enqueued) := by
  unfold checkout
  rw [hfind]
  simp [hsz]

/-- C3: checkout only returns connections of the pool's current generation,
and after `clear()` a checkout either creates a fresh, authenticated
connection or blocks — it never hands back a connection that was idle before
the clear. -/
theorem checkout_generation_invariant (p : Pool) (hwf : PoolWF p) :
    (∀ (p' : Pool) (c : Connection), checkout p = (p', .checkedOut c) →
        c.generation = p.generation)
    ∧ (∀ (p' : Pool) (c : Connection), checkout p.clear = (p', .checkedOut c) →
        c ∉ p.idle ∧ c.id = p.nextId ∧ c.generation = p.clear.generation ∧
          c.authenticated = true)
    ∧ p.clear.generation = p.generation + 1 := by
  refine ⟨?_, ?_, rfl⟩
  · intro p' c h
    cases hfind : p.idle.find? fun cc => cc.generation == p.generation with
    | some c0 =>
      rw [checkout_of_find_some p c0 hfind, Prod.mk.injEq] at h
      obtain ⟨-, h2⟩ := h
      injection h2 with h3
      subst h3
      have hp := List.find?_some hfind
      simpa using hp
    | none =>
      by_cases hsz : p.size < p.maxSize
      · rw [checkout_of_find_none_room p hfind hsz, Prod.mk.injEq] at h
        obtain ⟨-, h2⟩ := h
        injection h2 with h3
        subst h3
        rfl
      · rw [checkout_of_find_none_full p hfind hsz, Prod.mk.injEq] at h
        exact CheckoutResult.noConfusion h.2
  · have hfind : (p.clear.idle.find? fun c => c.generation == p.clear.generation) = none := by
      refine List.find?_eq_none.mpr fun c hc => ?_
      have hle : c.generation ≤ p.generation := (hwf c hc).1
      simp only [beq_iff_eq, Pool.clear]
      omega
    intro p' c h
    by_cases hsz : p.clear.size < p.clear.maxSize
    · rw [checkout_of_find_none_room p.clear hfind hsz, Prod.mk.injEq] at h
      obtain ⟨-, h2⟩ := h
      injection h2 with h3
      subst h3
      refine ⟨fun hmem => ?_, rfl, rfl, rfl⟩
      have hid := (hwf _ hmem).2
      simp only [Pool.clear] at hid
      omega
    · rw [checkout_of_find_none_full p.clear hfind hsz, Prod.mk.injEq] at h
      exact CheckoutResult.noConfusion h.2

/-- Sample pool: generation 1 with one stale idle connection from
generation 0, not yet drained. -/
def samplePool : Pool :=
  { generation := 1,
    idle := [{ id := 0, generation := 0, authenticated := true }],
    size := 1, maxSize := 2, nextId := 1, waitQueue := [] }

/-- C3 witness: the invariant instantiated on a pool holding a stale idle
connection. -/
theorem checkout_generation_invariant_witness :
    (∀ (p' : Pool) (c : Connection), checkout samplePool = (p', .checkedOut c) →
        c.generation = samplePool.generation)
    ∧ (∀ (p' : Pool) (c : Connection), checkout samplePool.clear = (p', .checkedOut c) →
        c ∉ samplePool.idle ∧ c.id = samplePool.nextId ∧
          c.generation = samplePool.clear.generation ∧ c.authenticated = true)
    ∧ samplePool.clear.generation = samplePool.generation + 1 :=
  checkout_generation_invariant samplePool (by unfold PoolWF; decide)

/-! ## Lemmas about the topology server map -/

theorem lookup_cons_self (a : String) (sd : ServerDescription)
    (t : List (String × ServerDescription)) :
    List.lookup a ((a, sd) :: t) = some sd := by
  simp [List.lookup]

theorem lookup_cons_ne (a b : String) (sd : ServerDescription)
    (t : List (String × ServerDescription)) (h : a ≠ b) :
    List.lookup a ((b, sd) :: t) = List.lookup a t := by
  have hb : (a == b) = false := beq_eq_false_iff_ne.mpr h
  simp [List.lookup, hb]

theorem setServer_cons (b : String) (cur : ServerDescription)
    (t : List (String × ServerDescription)) (a : String) (sd : ServerDescription) :
    setServer ((b, cur) :: t) a sd =
      if b == a then (a, sd) :: t else (b, cur) :: setServer t a sd := rfl

theorem lookup_setServer_self (l : List (String × ServerDescription)) (a : String)
    (sd : ServerDescription) : (setServer l a sd).lookup a = some sd := by
  induction l with
  | nil => exact lookup_cons_self a sd []
  | cons e t ih =>
    obtain ⟨b, cur⟩ := e
    by_cases hb : b = a
    · subst hb
      rw [setServer_cons, if_pos (by simp)]
      exact lookup_cons_self _ sd t
    · rw [setServer_cons, if_neg (by simp [hb])]
      rw [lookup_cons_ne a b cur _ (Ne.symm hb)]
      exact ih

theorem lookup_setServer_ne (l : List (String × ServerDescription)) (a x : String)
    (sd : ServerDescription) (hx : x ≠ a) :
    (setServer l a sd).lookup x = l.lookup x := by
  induction l with
  | nil =>
    show List.lookup x ((a, sd) :: []) = List.lookup x []
    rw [lookup_cons_ne x a sd [] hx]
  | cons e t ih =>
    obtain ⟨b, cur⟩ := e
    by_cases hb : b = a
    · subst hb
      rw [setServer_cons, if_pos (by simp)]
      rw [lookup_cons_ne x _ sd t hx, lookup_cons_ne x _ cur t hx]
    · rw [setServer_cons, if_neg (by simp [hb])]
      by_cases hxb : x = b
      · subst hxb
        rw [lookup_cons_self, lookup_cons_self]
      · rw [lookup_cons_ne x b cur _ hxb, lookup_cons_ne x b cur t hxb]
        exact ih

theorem mem_keys_setServer (l : List (String × ServerDescription)) (a x : String)
    (sd : ServerDescription) (hx : x ∈ (setServer l a sd).map Prod.fst) :
    x ∈ l.map Prod.fst ∨ x = a := by
  induction l with
  | nil =>
    simp only [setServer, List.map_cons, List.map_nil, List.mem_singleton] at hx
    exact Or.inr hx
  | cons e t ih =>
    obtain ⟨b, cur⟩ := e
    by_cases hb : b = a
    · subst hb
      simp only [setServer, beq_self_eq_true, if_true, List.map_cons, List.mem_cons] at hx
      rcases hx with rfl | hx
      · exact Or.inr rfl
      · exact Or.inl (by simp [hx])
    · simp only [setServer, beq_iff_eq, hb, if_false, List.map_cons, List.mem_cons] at hx
      rcases hx with rfl | hx
      · exact Or.inl (by simp)
      · rcases ih hx with h | h
        · exact Or.inl (by simp [h])
        · exact Or.inr h

theorem nodup_keys_setServer (l : List (String × ServerDescription)) (a : String)
    (sd : ServerDescription) (h : (l.map Prod.fst).Nodup) :
    ((setServer l a sd).map Prod.fst).Nodup := by
  induction l with
  | nil => simp [setServer]
  | cons e t ih =>
    obtain ⟨b, cur⟩ := e
    simp only [List.map_cons, List.nodup_cons] at h
    by_cases hb : b = a
    · subst hb
      simpa [setServer] using h
    · simp only [setServer, beq_iff_eq, hb, if_false, List.map_cons, List.nodup_cons]
      refine ⟨fun hmem => ?_, ih h.2⟩
      rcases mem_keys_setServer t a b sd hmem with hmem | rfl
      · exact h.1 hmem
      · exact hb rfl

theorem demote_cons (e : String × ServerDescription)
    (t : List (String × ServerDescription)) (a : String) :
    demoteToUnknown (e :: t) a =
      (if e.1 == a then (e.1, { e.2 with type := ServerType.Unknown }) else e) ::
        demoteToUnknown t a := rfl

theorem keys_demote (l : List (String × ServerDescription)) (a : String) :
    (demoteToUnknown l a).map Prod.fst = l.map Prod.fst := by
  induction l with
  | nil => rfl
  | cons e t ih =>
    obtain ⟨b, cur⟩ := e
    rw [demote_cons]
    by_cases hb : b = a
    · subst hb
      rw [if_pos (by simp)]
      simpa using ih
    · rw [if_neg (by simp [hb])]
      simpa using ih

theorem lookup_demote_self (l : List (String × ServerDescription)) (a : String) :
    (demoteToUnknown l a).lookup a =
      (l.lookup a).map fun sd => { sd with type := ServerType.Unknown } := by
  induction l with
  | nil => rfl
  | cons e t ih =>
    obtain ⟨b, cur⟩ := e
    rw [demote_cons]
    by_cases hb : b = a
    · subst hb
      rw [if_pos (by simp)]
      rw [lookup_cons_self, lookup_cons_self]
      rfl
    · rw [if_neg (by simp [hb])]
      rw [lookup_cons_ne a b _ _ (Ne.symm hb), lookup_cons_ne a b cur t (Ne.symm hb)]
      exact ih

theorem lookup_demote_ne (l : List (String × ServerDescription)) (pa x : String)
    (hx : x ≠ pa) : (demoteToUnknown l pa).lookup x = l.lookup x := by
  induction l with
  | nil => rfl
  | cons e t ih =>
    obtain ⟨b, cur⟩ := e
    rw [demote_cons]
    by_cases hb : b = pa
    · subst hb
      rw [if_pos (by simp)]
      rw [lookup_cons_ne x _ _ _ hx, lookup_cons_ne x _ cur t hx]
      exact ih
    · rw [if_neg (by simp [hb])]
      by_cases hxb : x = b
      · subst hxb
        rw [lookup_cons_self, lookup_cons_self]
      · rw [lookup_cons_ne x b _ _ hxb, lookup_cons_ne x b cur t hxb]
        exact ih

theorem lookup_of_mem_nodup (l : List (String × ServerDescription)) (a : String)
    (sd : ServerDescription) (hnd : (l.map Prod.fst).Nodup) (hmem : (a, sd) ∈ l) :
    l.lookup a = some sd := by
  induction l with
  | nil => cases hmem
  | cons e t ih =>
    obtain ⟨b, cur⟩ := e
    simp only [List.map_cons, List.nodup_cons] at hnd
    rcases List.mem_cons.mp hmem with he | hmem2
    · obtain ⟨rfl, rfl⟩ := Prod.mk.injEq .. ▸ he
      exact lookup_cons_self a sd t
    · have hab : a ≠ b := by
        rintro rfl
        exact hnd.1 (List.mem_map_of_mem Prod.fst hmem2)
      rw [lookup_cons_ne a b cur t hab]
      exact ih hnd.2 hmem2

/-! ## Counting lemmas for the primary invariant -/

theorem primCount_nil : primaryCount [] = 0 := rfl

theorem primCount_cons (e : String × ServerDescription)
    (t : List (String × ServerDescription)) :
    primaryCount (e :: t) =
      primaryCount t + (if e.2.type == ServerType.RSPrimary then 1 else 0) := by
  simp only [primaryCount, List.countP_cons]

theorem primCount_setServer_le (l : List (String × ServerDescription)) (a : String)
    (sd : ServerDescription) :
    primaryCount (setServer l a sd) ≤
      primaryCount l + (if sd.type == ServerType.RSPrimary then 1 else 0) := by
  induction l with
  | nil =>
    show primaryCount [(a, sd)] ≤ primaryCount [] + _
    rw [primCount_cons, primCount_nil]
  | cons e t ih =>
    obtain ⟨b, cur⟩ := e
    rw [setServer_cons]
    by_cases hb : b = a
    · have hbt : (b == a) = true := by simp [hb]
      rw [hbt]
      simp only [if_true]
      rw [primCount_cons, primCount_cons]
      have h2 : ((b, cur).2.type == ServerType.RSPrimary) = (cur.type == ServerType.RSPrimary) := rfl
      have h1 : ((a, sd).2.type == ServerType.RSPrimary) = (sd.type == ServerType.RSPrimary) := rfl
      rw [h1, h2]
      cases cur.type == ServerType.RSPrimary <;> omega
    · have hbf : (b == a) = false := by simp [hb]
      rw [hbf]
      simp only [Bool.false_eq_true, if_false]
      rw [primCount_cons, primCount_cons]
      omega

theorem primCount_demote (l : List (String × ServerDescription)) (a : String) :
    primaryCount (demoteToUnknown l a) =
      l.countP fun e => e.2.type == ServerType.RSPrimary && e.1 != a := by
  induction l with
  | nil => rfl
  | cons e t ih =>
    obtain ⟨b, cur⟩ := e
    rw [demote_cons, primCount_cons, List.countP_cons, ih]
    by_cases hb : b = a
    · subst hb
      simp
    · have hba : (b != a) = true := by simp [hb]
      have hbf : ((b, cur).1 == a) = false := by simp [hb]
      rw [hbf]
      simp only [Bool.false_eq_true, if_false, hba, Bool.and_true]

theorem two_le_countP (P : String × ServerDescription → Bool)
    (l : List (String × ServerDescription)) (x y : String × ServerDescription)
    (hx : x ∈ l) (hy : y ∈ l) (hxy : x ≠ y) (px : P x = true) (py : P y = true) :
    2 ≤ l.countP P := by
  induction l with
  | nil => cases hx
  | cons e t ih =>
    rw [List.countP_cons]
    rcases List.mem_cons.mp hx with rfl | hx2
    · have hy2 : y ∈ t := by
        rcases List.mem_cons.mp hy with rfl | hy2
        · exact absurd rfl hxy
        · exact hy2
      have h1 : 0 < t.countP P := List.countP_pos_iff.mpr ⟨y, hy2, py⟩
      rw [if_pos px]
      omega
    · rcases List.mem_cons.mp hy with rfl | hy2
      · have h1 : 0 < t.countP P := List.countP_pos_iff.mpr ⟨x, hx2, px⟩
        rw [if_pos py]
        omega
      · have := ih hx2 hy2
        omega

theorem primCount_setServer_all_at (l : List (String × ServerDescription))
    (a : String) (sd : ServerDescription)
    (hnd : (l.map Prod.fst).Nodup)
    (hall : ∀ e ∈ l, e.2.type = ServerType.RSPrimary → e.1 = a) :
    primaryCount (setServer l a sd) ≤ 1 := by
  induction l with
  | nil =>
    show primaryCount [(a, sd)] ≤ 1
    rw [primCount_cons, primCount_nil]
    split <;> omega
  | cons e t ih =>
    obtain ⟨b, cur⟩ := e
    simp only [List.map_cons, List.nodup_cons] at hnd
    rw [setServer_cons]
    by_cases hb : b = a
    · have hbt : (b == a) = true := by simp [hb]
      rw [hbt]
      simp only [if_true]
      rw [primCount_cons]
      have ht : primaryCount t = 0 := by
        rw [primaryCount, List.countP_eq_zero]
        intro e he
        simp only [beq_iff_eq]
        intro htype
        have hea := hall e (List.mem_cons_of_mem _ he) htype
        subst hb
        exact absurd (hea ▸ List.mem_map_of_mem Prod.fst he) hnd.1
      rw [ht]
      split <;> omega
    · have hbf : (b == a) = false := by simp [hb]
      rw [hbf]
      simp only [Bool.false_eq_true, if_false]
      rw [primCount_cons]
      have hcur : ((b, cur).2.type == ServerType.RSPrimary) = false := by
        simp only [beq_eq_false_iff_ne]
        intro htype
        exact hb (hall (b, cur) (List.mem_cons_self _ _) htype)
      rw [hcur]
      simp only [Bool.false_eq_true, if_false]
      have ihx := ih hnd.2 fun e he ht => hall e (List.mem_cons_of_mem _ he) ht
      omega

/-! ## Preservation of the single-primary invariant -/

theorem integrate_nonprimary (st : TopologyState) (sd : ServerDescription)
    (h : (sd.type == ServerType.RSPrimary) = false) :
    integrateDescription st sd =
      { st with servers := setServer st.servers sd.address sd } := by
  unfold integrateDescription
  rw [h]
  simp

theorem integrate_primary_no_other (st : TopologyState) (sd : ServerDescription)
    (h : (sd.type == ServerType.RSPrimary) = true)
    (hf : findOtherPrimary st.servers sd.address = none) :
    integrateDescription st sd =
      { st with servers := setServer st.servers sd.address sd } := by
  unfold integrateDescription
  rw [h, hf]
  simp

theorem integrate_primary_older (st : TopologyState) (sd : ServerDescription)
    (pa : String) (p : ServerDescription)
    (h : (sd.type == ServerType.RSPrimary) = true)
    (hf : findOtherPrimary st.servers sd.address = some (pa, p))
    (hold : electionPairOlder sd p = true) :
    integrateDescription st sd =
      { servers := setServer st.servers sd.address { sd with type := ServerType.Unknown },
        rechecks := sd.address :: st.rechecks } := by
  unfold integrateDescription
  rw [h, hf]
  simp [hold]

theorem integrate_primary_newer (st : TopologyState) (sd : ServerDescription)
    (pa : String) (p : ServerDescription)
    (h : (sd.type == ServerType.RSPrimary) = true)
    (hf : findOtherPrimary st.servers sd.address = some (pa, p))
    (hold : electionPairOlder sd p = false) :
    integrateDescription st sd =
      { servers := setServer (demoteToUnknown st.servers pa) sd.address sd,
        rechecks := pa :: st.rechecks } := by
  unfold integrateDescription
  rw [h, hf]
  simp [hold]

theorem applyUpdate_discard (st : TopologyState) (sd cur : ServerDescription)
    (hl : st.servers.lookup sd.address = some cur)
    (hv : sd.topologyVersion.newerThan cur.topologyVersion = false) :
    applyUpdate st sd = st := by
  unfold applyUpdate
  rw [hl]
  simp [hv]

theorem applyUpdate_admitStep (st : TopologyState) (sd : ServerDescription)
    (hv : versionAdmits st sd = true) :
    applyUpdate st sd = integrateDescription st sd := by
  unfold versionAdmits at hv
  unfold applyUpdate
  cases hl : st.servers.lookup sd.address with
  | some cur =>
    simp only [hl] at hv
    simp [hv]
  | none => rfl

theorem applyUpdate_not_admitted (st : TopologyState) (sd : ServerDescription)
    (hv : versionAdmits st sd = false) :
    applyUpdate st sd = st := by
  unfold versionAdmits at hv
  cases hl : st.servers.lookup sd.address with
  | some cur =>
    simp only [hl] at hv
    exact applyUpdate_discard st sd cur hl hv
  | none =>
    simp only [hl] at hv
    exact Bool.noConfusion hv

theorem integrate_WF (st : TopologyState) (sd : ServerDescription)
    (h : TopologyWF st) : TopologyWF (integrateDescription st sd) := by
  obtain ⟨hnd, hpc⟩ := h
  cases hprim : sd.type == ServerType.RSPrimary with
  | false =>
    rw [integrate_nonprimary st sd hprim]
    refine ⟨nodup_keys_setServer _ _ _ hnd, ?_⟩
    show primaryCount (setServer st.servers sd.address sd) ≤ 1
    have hle := primCount_setServer_le st.servers sd.address sd
    rw [hprim] at hle
    simp only [Bool.false_eq_true, if_false] at hle
    omega
  | true =>
    cases hf : findOtherPrimary st.servers sd.address with
    | none =>
      rw [integrate_primary_no_other st sd hprim hf]
      refine ⟨nodup_keys_setServer _ _ _ hnd, ?_⟩
      show primaryCount (setServer st.servers sd.address sd) ≤ 1
      have hall : ∀ e ∈ st.servers, e.2.type = ServerType.RSPrimary → e.1 = sd.address := by
        intro e he ht
        have hne := List.find?_eq_none.mp hf e he
        simp only [findOtherPrimary] at hne
        simp only [Bool.and_eq_true, beq_iff_eq, bne_iff_ne, not_and, ne_eq,
          not_not] at hne
        exact hne ht
      exact primCount_setServer_all_at st.servers sd.address sd hnd hall
    | some pp =>
      obtain ⟨pa, p⟩ := pp
      cases hold : electionPairOlder sd p with
      | true =>
        rw [integrate_primary_older st sd pa p hprim hf hold]
        refine ⟨nodup_keys_setServer _ _ _ hnd, ?_⟩
        show primaryCount
          (setServer st.servers sd.address { sd with type := ServerType.Unknown }) ≤ 1
        have hle := primCount_setServer_le st.servers sd.address
          { sd with type := ServerType.Unknown }
        have hu : (({ sd with type := ServerType.Unknown } : ServerDescription).type ==
            ServerType.RSPrimary) = false := rfl
        rw [hu] at hle
        simp only [Bool.false_eq_true, if_false] at hle
        omega
      | false =>
        rw [integrate_primary_newer st sd pa p hprim hf hold]
        have hpmem : (pa, p) ∈ st.servers := List.mem_of_find?_eq_some hf
        have hppred := List.find?_some hf
        simp only [Bool.and_eq_true, beq_iff_eq, bne_iff_ne, ne_eq] at hppred
        constructor
        · exact nodup_keys_setServer _ _ _ ((keys_demote st.servers pa) ▸ hnd)
        · have hz : primaryCount (demoteToUnknown st.servers pa) = 0 := by
            rw [primCount_demote, List.countP_eq_zero]
            intro e he hcontra
            simp only [Bool.and_eq_true, beq_iff_eq, bne_iff_ne, ne_eq] at hcontra
            have hneq : e ≠ (pa, p) := by
              intro heq
              subst heq
              exact hcontra.2 rfl
            have h2 := two_le_countP (fun e => e.2.type == ServerType.RSPrimary)
              st.servers e (pa, p) he hpmem hneq
              (by simp [hcontra.1]) (by simp [hppred.1])
            have : primaryCount st.servers = st.servers.countP
              (fun e => e.2.type == ServerType.RSPrimary) := rfl
            omega
          have hle := primCount_setServer_le (demoteToUnknown st.servers pa) sd.address sd
          rw [hz] at hle
          simp only [hprim, if_true, Nat.zero_add] at hle
          show primaryCount (setServer (demoteToUnknown st.servers pa) sd.address sd) ≤ 1
          omega

theorem applyUpdate_WF (st : TopologyState) (sd : ServerDescription)
    (h : TopologyWF st) : TopologyWF (applyUpdate st sd) := by
  cases hv : versionAdmits st sd with
  | true =>
    rw [applyUpdate_admitStep st sd hv]
    exact integrate_WF st sd h
  | false =>
    rw [applyUpdate_not_admitted st sd hv]
    exact h

theorem applyUpdates_WF (init : TopologyState) (updates : List ServerDescription)
    (h : TopologyWF init) : TopologyWF (applyUpdates init updates) := by
  induction updates generalizing init with
  | nil => exact h
  | cons sd rest ih => exact ih (applyUpdate init sd) (applyUpdate_WF init sd h)

theorem electionPairOlder_asymm (x y : ServerDescription)
    (h : electionPairOlder x y = true) : electionPairOlder y x = false := by
  unfold electionPairOlder at h ⊢
  simp only [Bool.or_eq_true, Bool.and_eq_true, decide_eq_true_eq, beq_iff_eq] at h
  simp only [Bool.or_eq_false_iff, Bool.and_eq_false_iff, decide_eq_false_iff_not,
    beq_eq_false_iff_ne, ne_eq, not_lt]
  omega

/-- C1: every topology state reached by folding ServerDescription updates
from a wellformed state classifies at most one server `RSPrimary`; when an
admitted update would imply two primaries, the side whose
`(setVersion, electionId)` pair is older is recorded with role `Unknown` and
its address is asked to re-check immediately. -/
theorem single_primary_invariant (init : TopologyState)
    (updates : List ServerDescription) (hwf : TopologyWF init) :
    primaryCount (applyUpdates init updates).servers ≤ 1
    ∧ (∀ (st : TopologyState) (sd : ServerDescription) (pa : String)
          (p : ServerDescription), TopologyWF st →
        versionAdmits st sd = true →
        sd.type = ServerType.RSPrimary →
        findOtherPrimary st.servers sd.address = some (pa, p) →
        electionPairOlder sd p = true →
        (applyUpdate st sd).servers.lookup sd.address =
            some { sd with type := ServerType.Unknown }
          ∧ sd.address ∈ (applyUpdate st sd).rechecks)
    ∧ (∀ (st : TopologyState) (sd : ServerDescription) (pa : String)
          (p : ServerDescription), TopologyWF st →
        versionAdmits st sd = true →
        sd.type = ServerType.RSPrimary →
        findOtherPrimary st.servers sd.address = some (pa, p) →
        electionPairOlder p sd = true →
        (applyUpdate st sd).servers.lookup pa =
            some { p with type := ServerType.Unknown }
          ∧ (applyUpdate st sd).servers.lookup sd.address = some sd
          ∧ pa ∈ (applyUpdate st sd).rechecks) := by
  refine ⟨(applyUpdates_WF init updates hwf).2, ?_, ?_⟩
  · intro st sd pa p hst hv htype hf hold
    have hb : (sd.type == ServerType.RSPrimary) = true := by simp [htype]
    rw [applyUpdate_admitStep st sd hv, integrate_primary_older st sd pa p hb hf hold]
    refine ⟨?_, ?_⟩
    · show (setServer st.servers sd.address
          { sd with type := ServerType.Unknown }).lookup sd.address = _
      exact lookup_setServer_self _ _ _
    · show sd.address ∈ sd.address :: st.rechecks
      exact List.mem_cons_self _ _
  · intro st sd pa p hst hv htype hf hold
    have hb : (sd.type == ServerType.RSPrimary) = true := by simp [htype]
    have holdf : electionPairOlder sd p = false := electionPairOlder_asymm p sd hold
    rw [applyUpdate_admitStep st sd hv, integrate_primary_newer st sd pa p hb hf holdf]
    have hppred := List.find?_some hf
    simp only [Bool.and_eq_true, beq_iff_eq, bne_iff_ne, ne_eq] at hppred
    have hpmem : (pa, p) ∈ st.servers := List.mem_of_find?_eq_some hf
    refine ⟨?_, ?_, ?_⟩
    · show (setServer (demoteToUnknown st.servers pa) sd.address sd).lookup pa = _
      rw [lookup_setServer_ne _ _ _ _ hppred.2, lookup_demote_self]
      rw [lookup_of_mem_nodup st.servers pa p hst.1 hpmem]
      rfl
    · show (setServer (demoteToUnknown st.servers pa) sd.address sd).lookup sd.address = _
      exact lookup_setServer_self _ _ _
    · show pa ∈ pa :: st.rechecks
      exact List.mem_cons_self _ _

/-- Sample topology holding one primary at address s1. -/
def sampleTopology : TopologyState :=
  { servers := [("s1",
      { address := "s1", type := ServerType.RSPrimary, setVersion := 2,
        electionId := 2, topologyVersion := { processId := 1, counter := 5 } })],
    rechecks := [] }

/-- Sample update stream: a second, staler primary report from address s2. -/
def sampleUpdates : List ServerDescription :=
  [{ address := "s2", type := ServerType.RSPrimary, setVersion := 1, electionId := 1,
     topologyVersion := { processId := 2, counter := 1 } }]

/-- C1 witness: the invariant instantiated on a topology with one primary and
a conflicting stale primary report. -/
theorem single_primary_invariant_witness :
    primaryCount (applyUpdates sampleTopology sampleUpdates).servers ≤ 1
    ∧ (∀ (st : TopologyState) (sd : ServerDescription) (pa : String)
          (p : ServerDescription), TopologyWF st →
        versionAdmits st sd = true →
        sd.type = ServerType.RSPrimary →
        findOtherPrimary st.servers sd.address = some (pa, p) →
        electionPairOlder sd p = true →
        (applyUpdate st sd).servers.lookup sd.address =
            some { sd with type := ServerType.Unknown }
          ∧ sd.address ∈ (applyUpdate st sd).rechecks)
    ∧ (∀ (st : TopologyState) (sd : ServerDescription) (pa : String)
          (p : ServerDescription), TopologyWF st →
        versionAdmits st sd = true →
        sd.type = ServerType.RSPrimary →
        findOtherPrimary st.servers sd.address = some (pa, p) →
        electionPairOlder p sd = true →
        (applyUpdate st sd).servers.lookup pa =
            some { p with type := ServerType.Unknown }
          ∧ (applyUpdate st sd).servers.lookup sd.address = some sd
          ∧ pa ∈ (applyUpdate st sd).rechecks) :=
  single_primary_invariant sampleTopology sampleUpdates
    (by unfold TopologyWF; decide)

/-! ## The per-address version guard -/

theorem newerThan_iff (x y : TopologyVersion) :
    x.newerThan y = true ↔
      y.processId < x.processId ∨
        (x.processId = y.processId ∧ y.counter < x.counter) := by
  unfold TopologyVersion.newerThan
  simp [Bool.or_eq_true, Bool.and_eq_true, decide_eq_true_eq, beq_iff_eq]

theorem newerThan_eq_false (x y : TopologyVersion) :
    x.newerThan y = false ↔
      ¬(y.processId < x.processId ∨
        (x.processId = y.processId ∧ y.counter < x.counter)) := by
  rw [← newerThan_iff]
  cases x.newerThan y <;> simp

theorem topologyVersion_ext (a b : TopologyVersion)
    (h1 : a.processId = b.processId) (h2 : a.counter = b.counter) : a = b := by
  cases a
  cases b
  simp_all

/-- Lexicographic maximum of two topology versions (the incoming side wins
only when strictly newer). -/
def maxT (a b : TopologyVersion) : TopologyVersion :=
  if b.newerThan a then b else a

theorem tvMax_some_eq (v0 w : TopologyVersion) :
    tvMax (some v0) w = some (maxT v0 w) := by
  show (if w.newerThan v0 = true then some w else some v0) =
    some (if w.newerThan v0 = true then w else v0)
  split <;> rfl

theorem tvMax_none_eq (w : TopologyVersion) : tvMax none w = some w := rfl

theorem maxT_comm (a b : TopologyVersion) : maxT a b = maxT b a := by
  unfold maxT
  cases h1 : b.newerThan a <;> cases h2 : a.newerThan b <;> simp
  · rw [newerThan_eq_false] at h1 h2
    exact topologyVersion_ext a b (by omega) (by omega)
  · rw [newerThan_iff] at h1 h2
    exfalso
    omega

theorem maxT_idem (a : TopologyVersion) : maxT a a = a := by
  unfold maxT
  split <;> rfl

theorem maxT_assoc (a b c : TopologyVersion) :
    maxT (maxT a b) c = maxT a (maxT b c) := by
  unfold maxT
  rcases Bool.eq_false_or_eq_true (b.newerThan a) with h1 | h1 <;>
    rcases Bool.eq_false_or_eq_true (c.newerThan b) with h2 | h2 <;>
    rcases Bool.eq_false_or_eq_true (c.newerThan a) with h3 | h3 <;>
    simp [h1, h2, h3]
  · rw [newerThan_iff] at h1 h2
    rw [newerThan_eq_false] at h3
    exfalso
    omega
  · rw [newerThan_eq_false] at h1 h2
    rw [newerThan_iff] at h3
    exfalso
    omega

theorem tvMax_comm (v : Option TopologyVersion) (x y : TopologyVersion) :
    tvMax (tvMax v x) y = tvMax (tvMax v y) x := by
  cases v with
  | none =>
    rw [tvMax_none_eq, tvMax_none_eq, tvMax_some_eq, tvMax_some_eq]
    exact congrArg some (maxT_comm x y)
  | some v0 =>
    rw [tvMax_some_eq, tvMax_some_eq, tvMax_some_eq, tvMax_some_eq]
    refine congrArg some ?_
    calc maxT (maxT v0 x) y = maxT v0 (maxT x y) := maxT_assoc v0 x y
      _ = maxT v0 (maxT y x) := by rw [maxT_comm x y]
      _ = maxT (maxT v0 y) x := (maxT_assoc v0 y x).symm

theorem tvMax_idem_pair (v : Option TopologyVersion) (w : TopologyVersion) :
    tvMax (tvMax v w) w = tvMax v w := by
  cases v with
  | none =>
    rw [tvMax_none_eq, tvMax_some_eq]
    exact congrArg some (maxT_idem w)
  | some v0 =>
    rw [tvMax_some_eq, tvMax_some_eq]
    refine congrArg some ?_
    rw [maxT_assoc, maxT_idem]

theorem storedVersion_setServer
    (l : List (String × ServerDescription)) (rechecks : List String)
    (sd sd' : ServerDescription) (a : String)
    (htv : sd'.topologyVersion = sd.topologyVersion) :
    storedVersion { servers := setServer l sd.address sd', rechecks := rechecks } a =
      if sd.address = a then some sd.topologyVersion
      else storedVersion { servers := l, rechecks := rechecks } a := by
  unfold storedVersion
  by_cases ha : sd.address = a
  · subst ha
    rw [lookup_setServer_self, if_pos rfl]
    simp [htv]
  · rw [lookup_setServer_ne _ _ _ _ fun he => ha he.symm, if_neg ha]

theorem storedVersion_demote (l : List (String × ServerDescription))
    (rechecks : List String) (pa a : String) :
    storedVersion { servers := demoteToUnknown l pa, rechecks := rechecks } a =
      storedVersion { servers := l, rechecks := rechecks } a := by
  unfold storedVersion
  by_cases ha : a = pa
  · subst ha
    rw [lookup_demote_self]
    cases l.lookup a <;> rfl
  · rw [lookup_demote_ne _ _ _ ha]

theorem storedVersion_integrate (st : TopologyState) (sd : ServerDescription)
    (a : String) :
    storedVersion (integrateDescription st sd) a =
      if sd.address = a then some sd.topologyVersion else storedVersion st a := by
  cases hprim : sd.type == ServerType.RSPrimary with
  | false =>
    rw [integrate_nonprimary st sd hprim]
    exact storedVersion_setServer st.servers st.rechecks sd sd a rfl
  | true =>
    cases hf : findOtherPrimary st.servers sd.address with
    | none =>
      rw [integrate_primary_no_other st sd hprim hf]
      exact storedVersion_setServer st.servers st.rechecks sd sd a rfl
    | some pp =>
      obtain ⟨pa, p⟩ := pp
      cases hold : electionPairOlder sd p with
      | true =>
        rw [integrate_primary_older st sd pa p hprim hf hold]
        exact storedVersion_setServer st.servers (sd.address :: st.rechecks) sd
          { sd with type := ServerType.Unknown } a rfl
      | false =>
        rw [integrate_primary_newer st sd pa p hprim hf hold]
        rw [storedVersion_setServer (demoteToUnknown st.servers pa)
          (pa :: st.rechecks) sd sd a rfl]
        rw [storedVersion_demote st.servers (pa :: st.rechecks) pa a]
        rfl

theorem storedVersion_eta (st : TopologyState) (a : String) :
    storedVersion { servers := st.servers, rechecks := st.rechecks } a =
      storedVersion st a := rfl

theorem storedVersion_applyUpdate (st : TopologyState) (sd : ServerDescription)
    (a : String) :
    storedVersion (applyUpdate st sd) a =
      if sd.address = a then tvMax (storedVersion st a) sd.topologyVersion
      else storedVersion st a := by
  cases hv : versionAdmits st sd with
  | true =>
    rw [applyUpdate_admitStep st sd hv, storedVersion_integrate]
    by_cases ha : sd.address = a
    · rw [if_pos ha, if_pos ha]
      subst ha
      unfold versionAdmits at hv
      unfold storedVersion
      cases hl : st.servers.lookup sd.address with
      | some cur =>
        simp only [hl] at hv
        show some sd.topologyVersion = tvMax (some cur.topologyVersion) sd.topologyVersion
        rw [tvMax_some_eq]
        unfold maxT
        rw [hv]
        simp
      | none => rfl
    · rw [if_neg ha, if_neg ha]
  | false =>
    rw [applyUpdate_not_admitted st sd hv]
    by_cases ha : sd.address = a
    · rw [if_pos ha]
      subst ha
      unfold versionAdmits at hv
      unfold storedVersion
      cases hl : st.servers.lookup sd.address with
      | some cur =>
        simp only [hl] at hv
        show some cur.topologyVersion = tvMax (some cur.topologyVersion) sd.topologyVersion
        rw [tvMax_some_eq]
        unfold maxT
        rw [hv]
        simp
      | none =>
        simp only [hl] at hv
        exact Bool.noConfusion hv
    · rw [if_neg ha]

theorem versionFold_cons (v : Option TopologyVersion) (sd : ServerDescription)
    (rest : List ServerDescription) (a : String) :
    versionFold v (sd :: rest) a =
      versionFold (if sd.address == a then tvMax v sd.topologyVersion else v)
        rest a := rfl

theorem versionFold_append (v : Option TopologyVersion)
    (l₁ l₂ : List ServerDescription) (a : String) :
    versionFold v (l₁ ++ l₂) a = versionFold (versionFold v l₁ a) l₂ a := by
  unfold versionFold
  rw [List.foldl_append]

theorem storedVersion_applyUpdates (init : TopologyState)
    (updates : List ServerDescription) (a : String) :
    storedVersion (applyUpdates init updates) a =
      versionFold (storedVersion init a) updates a := by
  induction updates generalizing init with
  | nil => rfl
  | cons sd rest ih =>
    have step := storedVersion_applyUpdate init sd a
    calc storedVersion (applyUpdates (applyUpdate init sd) rest) a
        = versionFold (storedVersion (applyUpdate init sd) a) rest a :=
          ih (applyUpdate init sd)
      _ = versionFold
            (if sd.address == a then tvMax (storedVersion init a) sd.topologyVersion
              else storedVersion init a) rest a := by
          rw [step]
          by_cases ha : sd.address = a
          · rw [if_pos ha, if_pos (by simp [ha])]
          · rw [if_neg ha, if_neg (by simp [ha])]
      _ = versionFold (storedVersion init a) (sd :: rest) a :=
          (versionFold_cons _ _ _ _).symm

theorem versionFold_perm (v : Option TopologyVersion)
    (us₁ us₂ : List ServerDescription) (a : String) (hp : us₁.Perm us₂) :
    versionFold v us₁ a = versionFold v us₂ a := by
  unfold versionFold
  refine hp.foldl_eq' ?_ v
  intro x _ y _ z
  by_cases hx : (x.address == a) = true
  · by_cases hy : (y.address == a) = true
    · simp only [if_pos hx, if_pos hy]
      exact tvMax_comm z x.topologyVersion y.topologyVersion
    · simp only [if_pos hx, if_neg hy]
  · by_cases hy : (y.address == a) = true
    · simp only [if_neg hx, if_pos hy]
    · simp only [if_neg hx, if_neg hy]

theorem versionFold_step_idem (w : Option TopologyVersion)
    (sd : ServerDescription) (a : String) :
    (if sd.address == a then
        tvMax (if sd.address == a then tvMax w sd.topologyVersion else w)
          sd.topologyVersion
      else if sd.address == a then tvMax w sd.topologyVersion else w) =
      if sd.address == a then tvMax w sd.topologyVersion else w := by
  by_cases h : (sd.address == a) = true
  · simp only [if_pos h]
    exact tvMax_idem_pair w sd.topologyVersion
  · simp only [if_neg h]

/-- C2: the topology fold discards any incoming ServerDescription whose
topology version is not newer than the one stored for its address, and the
stored topology version per address is the accumulated maximum of the
delivered versions — so it is invariant under reordering and duplication of
the update stream (the primary tie-break may additionally demote the stored
role, but never the stored version). -/
theorem topology_version_guard (init : TopologyState)
    (updates₁ updates₂ : List ServerDescription) (a : String)
    (hperm : updates₁.Perm updates₂) :
    (∀ (st : TopologyState) (sd cur : ServerDescription),
        st.servers.lookup sd.address = some cur →
        sd.topologyVersion.newerThan cur.topologyVersion = false →
        applyUpdate st sd = st)
    ∧ storedVersion (applyUpdates init updates₁) a =
        versionFold (storedVersion init a) updates₁ a
    ∧ storedVersion (applyUpdates init updates₁) a =
        storedVersion (applyUpdates init updates₂) a
    ∧ (∀ (pre post : List ServerDescription) (sd : ServerDescription),
        storedVersion (applyUpdates init (pre ++ sd :: sd :: post)) a =
          storedVersion (applyUpdates init (pre ++ sd :: post)) a) := by
  refine ⟨fun st sd cur h1 h2 => applyUpdate_discard st sd cur h1 h2,
    storedVersion_applyUpdates init updates₁ a, ?_, ?_⟩
  · rw [storedVersion_applyUpdates, storedVersion_applyUpdates]
    exact versionFold_perm _ _ _ a hperm
  · intro pre post sd
    rw [storedVersion_applyUpdates, storedVersion_applyUpdates,
      versionFold_append, versionFold_append, versionFold_cons, versionFold_cons,
      versionFold_cons, versionFold_step_idem]

/-- Two sample updates for the same topology, delivered in both orders. -/
def updateLow : ServerDescription :=
  { address := "s1", type := ServerType.RSSecondary, setVersion := 2, electionId := 2,
    topologyVersion := { processId := 1, counter := 6 } }

/-- Sample update with a higher topology version for the same address. -/
def updateHigh : ServerDescription :=
  { address := "s1", type := ServerType.RSPrimary, setVersion := 2, electionId := 3,
    topologyVersion := { processId := 1, counter := 7 } }

/-- C2 witness: the guard theorem instantiated on two orderings of the same
two updates. -/
theorem topology_version_guard_witness :
    (∀ (st : TopologyState) (sd cur : ServerDescription),
        st.servers.lookup sd.address = some cur →
        sd.topologyVersion.newerThan cur.topologyVersion = false →
        applyUpdate st sd = st)
    ∧ storedVersion (applyUpdates sampleTopology [updateLow, updateHigh]) "s1" =
        versionFold (storedVersion sampleTopology "s1") [updateLow, updateHigh] "s1"
    ∧ storedVersion (applyUpdates sampleTopology [updateLow, updateHigh]) "s1" =
        storedVersion (applyUpdates sampleTopology [updateHigh, updateLow]) "s1"
    ∧ (∀ (pre post : List ServerDescription) (sd : ServerDescription),
        storedVersion (applyUpdates sampleTopology (pre ++ sd :: sd :: post)) "s1" =
          storedVersion (applyUpdates sampleTopology (pre ++ sd :: post)) "s1") :=
  topology_version_guard sampleTopology [updateLow, updateHigh]
    [updateHigh, updateLow] "s1" (by decide)

end Mongo
